import Mathlib

/- Verification of the numerical-methods core of app/algohub/algorithms/numeric.py,
as a shallow embedding over exact rational arithmetic: Python numbers are
modelled by ℚ, Python ints by ℤ, and a raised exception by Except.error.
The source tracks an explicit iteration counter in bisection_root, so the
loop embedding returns the result together with the number of completed loop
iterations. -/

/-- Python's round(x, k) rounds half to even; pyRoundInt is round-half-to-even
to the nearest integer, on exact rationals. -/
def pyRoundInt (q : ℚ) : ℤ :=
  let f := ⌊q⌋
  let r := q - f
  if r < 1 / 2 then f
  else if 1 / 2 < r then f + 1
  else if f % 2 = 0 then f else f + 1

/-- round(x, 3) from the source: round to 3 decimal places. -/
def round3 (q : ℚ) : ℚ := (pyRoundInt (q * 1000) : ℚ) / 1000

/-- Message of the ValueError raised by bisection_root on a bad bracket. -/
def bracketErrMsg : String := "The multiplication result must be a negative number"

/-- Message standing for the Python ZeroDivisionError raised by the division
operator when its divisor is zero. -/
def divisionByZeroMsg : String := "division by zero"

/-- Attach one more completed iteration to a loop result. -/
def stepInc (p : ℚ × ℕ) : ℚ × ℕ := (p.1, p.2 + 1)

/-- The while-loop of bisection_root (numeric.py lines 35-44).  The fuel
argument is the number of iterations the cap `iteration < max_iterations`
still allows; the condition `(b - a) / 2 > tolerance` is re-checked on each
entry, the midpoint c = (a + b) / 2 is returned unrounded when func c = 0,
and on loop exit the final midpoint is rounded to 3 decimals.  The second
component counts completed loop iterations, mirroring the source's
`iteration` variable. -/
def bisectionLoop (func : ℚ → ℚ) (tol : ℚ) : ℕ → ℚ → ℚ → ℚ × ℕ
  | 0, a, b => (round3 ((a + b) / 2), 0)
  | fuel + 1, a, b =>
    if (b - a) / 2 > tol then
      if func ((a + b) / 2) = 0 then ((a + b) / 2, 0)
      else if func a * func ((a + b) / 2) < 0 then
        stepInc (bisectionLoop func tol fuel a ((a + b) / 2))
      else
        stepInc (bisectionLoop func tol fuel ((a + b) / 2) b)
    else (round3 ((a + b) / 2), 0)

/-- bisection_root (numeric.py lines 5-44), paired with its iteration count:
raise ValueError when func a * func b > 0, otherwise swap the endpoints when
a > b and run the loop. -/
def bisection_rootP (func : ℚ → ℚ) (a b : ℚ) (tol : ℚ) (maxIter : ℤ) :
    Except String ℚ × ℕ :=
  if func a * func b > 0 then (Except.error bracketErrMsg, 0)
  else
    let p := if a > b then bisectionLoop func tol maxIter.toNat b a
             else bisectionLoop func tol maxIter.toNat a b
    (Except.ok p.1, p.2)

/-- The value returned (or error raised) by bisection_root. -/
def bisection_root (func : ℚ → ℚ) (a b : ℚ) (tol : ℚ) (maxIter : ℤ) :
    Except String ℚ :=
  (bisection_rootP func a b tol maxIter).1

/-- The number of completed loop iterations of a bisection_root call. -/
def bisection_rootIter (func : ℚ → ℚ) (a b : ℚ) (tol : ℚ) (maxIter : ℤ) : ℕ :=
  (bisection_rootP func a b tol maxIter).2

/-- Whether a call outcome is a raised error. -/
def isError : Except String ℚ → Bool
  | Except.error _ => true
  | Except.ok _ => false

/-- Reference loop following the spec's wording (§4.1): repeat while
(b - a) / 2 > tolerance and the count is below the cap; midpoint returned
unrounded on an exact root; on exit the midpoint rounded to 3 decimals. -/
def findRootSpecLoop (func : ℚ → ℚ) (tol : ℚ) : ℕ → ℚ → ℚ → ℚ
  | 0, a, b => round3 ((a + b) / 2)
  | fuel + 1, a, b =>
    if (b - a) / 2 > tol then
      if func ((a + b) / 2) = 0 then (a + b) / 2
      else if func a * func ((a + b) / 2) < 0 then
        findRootSpecLoop func tol fuel a ((a + b) / 2)
      else
        findRootSpecLoop func tol fuel ((a + b) / 2) b
    else round3 ((a + b) / 2)

/-- Reference root finder following the spec's wording: swap a and b if
a > b, then run the reference loop. -/
def find_root_spec (func : ℚ → ℚ) (a b : ℚ) (tol : ℚ) (maxIter : ℤ) : ℚ :=
  if a > b then findRootSpecLoop func tol maxIter.toNat b a
  else findRootSpecLoop func tol maxIter.toNat a b

lemma bisectionLoop_fst (func : ℚ → ℚ) (tol : ℚ) :
    ∀ (fuel : ℕ) (a b : ℚ),
      (bisectionLoop func tol fuel a b).1 = findRootSpecLoop func tol fuel a b := by
  intro fuel
  induction fuel with
  | zero => intro a b; rfl
  | succ p ih =>
    intro a b
    by_cases h1 : (b - a) / 2 > tol
    · by_cases h2 : func ((a + b) / 2) = 0
      · simp [bisectionLoop, findRootSpecLoop, h1, h2]
      · by_cases h3 : func a * func ((a + b) / 2) < 0
        · simp [bisectionLoop, findRootSpecLoop, h1, h2, h3, stepInc, ih]
        · simp [bisectionLoop, findRootSpecLoop, h1, h2, h3, stepInc, ih]
    · simp [bisectionLoop, findRootSpecLoop, h1]

lemma bisectionLoop_count_le (func : ℚ → ℚ) (tol : ℚ) :
    ∀ (fuel : ℕ) (a b : ℚ), (bisectionLoop func tol fuel a b).2 ≤ fuel := by
  intro fuel
  induction fuel with
  | zero => intro a b; simp [bisectionLoop]
  | succ p ih =>
    intro a b
    by_cases h1 : (b - a) / 2 > tol
    · by_cases h2 : func ((a + b) / 2) = 0
      · simp [bisectionLoop, h1, h2]
      · by_cases h3 : func a * func ((a + b) / 2) < 0
        · simp only [bisectionLoop, if_pos h1, if_neg h2, if_pos h3, stepInc]
          exact Nat.succ_le_succ (ih a ((a + b) / 2))
        · simp only [bisectionLoop, if_pos h1, if_neg h2, if_neg h3, stepInc]
          exact Nat.succ_le_succ (ih ((a + b) / 2) b)
    · simp [bisectionLoop, h1]

/-- C1: bisection_root fails (with the bracket ValueError) iff
func a * func b > 0; when it fails it performs zero loop iterations, and
the failure is decided by the values of func at a and b alone. -/
theorem bracket_validation (func : ℚ → ℚ) (a b tol : ℚ) (m : ℤ) :
    (isError (bisection_root func a b tol m) = true ↔ func a * func b > 0)
    ∧ (func a * func b > 0 →
        bisection_root func a b tol m = Except.error bracketErrMsg
        ∧ bisection_rootIter func a b tol m = 0
        ∧ ∀ g : ℚ → ℚ, g a = func a → g b = func b →
            isError (bisection_root g a b tol m) = true) := by
  constructor
  · by_cases h : func a * func b > 0
    · simp [bisection_root, bisection_rootP, h, isError]
    · simp [bisection_root, bisection_rootP, h, isError]
  · intro h
    refine ⟨?_, ?_, ?_⟩
    · simp [bisection_root, bisection_rootP, h]
    · simp [bisection_rootIter, bisection_rootP, h]
    · intro g hga hgb
      have hg : g a * g b > 0 := by rw [hga, hgb]; exact h
      simp [bisection_root, bisection_rootP, hg, isError]

theorem bracket_validation_witness :
    isError (bisection_root (fun _ => (1 : ℚ)) 0 1 (1 / 1000000) 100) = true
    ∧ bisection_rootIter (fun _ => (1 : ℚ)) 0 1 (1 / 1000000) 100 = 0 := by
  have h := bracket_validation (fun _ => (1 : ℚ)) 0 1 (1 / 1000000) 100
  exact ⟨h.1.mpr (by norm_num), (h.2 (by norm_num)).2.1⟩

/-- C2: under the bracket precondition func a * func b ≤ 0, bisection_root
returns Except.ok of the spec's reference bisection value. -/
theorem root_refinement (func : ℚ → ℚ) (a b tol : ℚ) (m : ℤ)
    (h : func a * func b ≤ 0) :
    bisection_root func a b tol m = Except.ok (find_root_spec func a b tol m) := by
  have hng : ¬func a * func b > 0 := not_lt.mpr h
  by_cases hab : a > b
  · simp [bisection_root, bisection_rootP, find_root_spec, hng, hab, bisectionLoop_fst]
  · simp [bisection_root, bisection_rootP, find_root_spec, hng, hab, bisectionLoop_fst]

theorem root_refinement_witness :
    (fun x : ℚ => x - 5) 0 * (fun x : ℚ => x - 5) 10 ≤ 0
    ∧ bisection_root (fun x => x - 5) 0 10 (1 / 1000000) 100
        = Except.ok (find_root_spec (fun x => x - 5) 0 10 (1 / 1000000) 100) :=
  ⟨by norm_num, root_refinement (fun x => x - 5) 0 10 (1 / 1000000) 100 (by norm_num)⟩

/-- C5: swapping the endpoints yields the identical outcome, value and
error alike. -/
theorem order_independence (func : ℚ → ℚ) (a b tol : ℚ) (m : ℤ) :
    bisection_root func a b tol m = bisection_root func b a tol m := by
  have hcomm : func b * func a = func a * func b := mul_comm _ _
  by_cases h : func a * func b > 0
  · have h2 : func b * func a > 0 := by rwa [hcomm]
    simp [bisection_root, bisection_rootP, h, h2]
  · have h2 : ¬func b * func a > 0 := by rwa [hcomm]
    rcases lt_trichotomy a b with hab | hab | hab
    · have h3 : ¬a > b := not_lt.mpr hab.le
      simp [bisection_root, bisection_rootP, h, h2, h3, hab]
    · subst hab
      simp [bisection_root, bisection_rootP, h, h2]
    · have h3 : ¬b > a := not_lt.mpr hab.le
      simp [bisection_root, bisection_rootP, h, h2, h3, hab]

/-- The sample points of TrapezoidalIntegration.calculate's loop
(numeric.py lines 80-82): x = a + i * h for i in range(1, n). -/
def trapSamplePoints (a h : ℚ) (n : ℤ) : List ℚ :=
  (List.range' 1 (n - 1).toNat).map (fun i : ℕ => a + (i : ℚ) * h)

/-- TrapezoidalIntegration.calculate (numeric.py lines 66-83): h = (b - a) / n
(a ZeroDivisionError when n = 0), the accumulator starts at
0.5 * (func a + func b), adds func x over the sample points, and the result
is the accumulator times h. -/
def trapCalculate (func : ℚ → ℚ) (a b : ℚ) (n : ℤ) : Except String ℚ :=
  if n = 0 then Except.error divisionByZeroMsg
  else
    Except.ok
      ((trapSamplePoints a ((b - a) / (n : ℚ)) n).foldl (fun s x => s + func x)
          (1 / 2 * (func a + func b)) * ((b - a) / (n : ℚ)))

/-- The sample points of RectangularIntegration.calculate's loop
(numeric.py lines 101-104): x = a + (i + 0.5) * h for i in range(n). -/
def rectSamplePoints (a h : ℚ) (n : ℤ) : List ℚ :=
  (List.range n.toNat).map (fun i : ℕ => a + ((i : ℚ) + 1 / 2) * h)

/-- RectangularIntegration.calculate (numeric.py lines 86-105): h = (b - a) / n
(a ZeroDivisionError when n = 0), the accumulator starts at 0 and adds
func x * h over the sample points. -/
def rectCalculate (func : ℚ → ℚ) (a b : ℚ) (n : ℤ) : Except String ℚ :=
  if n = 0 then Except.error divisionByZeroMsg
  else
    Except.ok
      ((rectSamplePoints a ((b - a) / (n : ℚ)) n).foldl
        (fun s x => s + func x * ((b - a) / (n : ℚ))) 0)

lemma foldl_add_eq_sum {α : Type} (g : α → ℚ) (l : List α) :
    ∀ init : ℚ, l.foldl (fun s x => s + g x) init = init + (l.map g).sum := by
  induction l with
  | nil => intro init; simp
  | cons x xs ih =>
    intro init
    simp [List.foldl_cons, ih, add_assoc]

lemma range_map_sum (g : ℕ → ℚ) (k : ℕ) :
    ((List.range k).map g).sum = ∑ i ∈ Finset.range k, g i := by
  induction k with
  | zero => simp
  | succ p ih =>
    rw [List.range_succ]
    simp [ih, Finset.sum_range_succ]

lemma range1_map_sum (g : ℕ → ℚ) (k : ℕ) :
    ((List.range' 1 k).map g).sum = ∑ i ∈ Finset.Icc 1 k, g i := by
  induction k with
  | zero => simp
  | succ p ih =>
    rw [List.range'_concat]
    rw [Finset.sum_Icc_succ_top (by omega)]
    simp [ih, Nat.add_comm]

lemma trapCalculate_eq (func : ℚ → ℚ) (a b : ℚ) (n : ℤ) (hn : n ≠ 0) :
    trapCalculate func a b n = Except.ok
      ((1 / 2 * (func a + func b) +
        ∑ i ∈ Finset.Icc 1 (n - 1).toNat, func (a + (i : ℚ) * ((b - a) / (n : ℚ)))) *
       ((b - a) / (n : ℚ))) := by
  rw [trapCalculate, if_neg hn, trapSamplePoints]
  rw [foldl_add_eq_sum func, List.map_map]
  simp only [Function.comp_def]
  rw [range1_map_sum (fun i : ℕ => func (a + (i : ℚ) * ((b - a) / (n : ℚ)))) (n - 1).toNat]

lemma rectCalculate_eq (func : ℚ → ℚ) (a b : ℚ) (n : ℤ) (hn : n ≠ 0) :
    rectCalculate func a b n = Except.ok
      (∑ i ∈ Finset.range n.toNat,
        func (a + ((i : ℚ) + 1 / 2) * ((b - a) / (n : ℚ))) * ((b - a) / (n : ℚ))) := by
  rw [rectCalculate, if_neg hn, rectSamplePoints]
  rw [foldl_add_eq_sum (fun x => func x * ((b - a) / (n : ℚ))), List.map_map]
  simp only [Function.comp_def]
  rw [range_map_sum (fun i : ℕ => func (a + ((i : ℚ) + 1 / 2) * ((b - a) / (n : ℚ))) * ((b - a) / (n : ℚ))) n.toNat]
  simp

/-- C3: for n ≥ 1, TrapezoidalIntegration.calculate returns
h * (func a / 2 + func b / 2 + the sum of func (a + i * h) for i = 1..n-1),
with h = (b - a) / n. -/
theorem trapezoidal_formula (func : ℚ → ℚ) (a b : ℚ) (n : ℤ) (hn : 1 ≤ n) :
    trapCalculate func a b n = Except.ok
      ((b - a) / (n : ℚ) *
        (1 / 2 * func a + 1 / 2 * func b +
         ∑ i ∈ Finset.Icc 1 (n - 1).toNat,
           func (a + (i : ℚ) * ((b - a) / (n : ℚ))))) := by
  rw [trapCalculate_eq func a b n (by omega)]
  rw [Except.ok.injEq]
  ring

theorem trapezoidal_formula_witness :
    (1 : ℤ) ≤ 3
    ∧ trapCalculate (fun x => x) 0 1 3 = Except.ok
        ((1 - 0) / ((3 : ℤ) : ℚ) *
          (1 / 2 * 0 + 1 / 2 * 1 +
           ∑ i ∈ Finset.Icc 1 ((3 : ℤ) - 1).toNat,
             (0 + (i : ℚ) * ((1 - 0) / ((3 : ℤ) : ℚ))))) :=
  ⟨by decide, trapezoidal_formula (fun x => x) 0 1 3 (by decide)⟩

/-- C4: for n ≥ 1, RectangularIntegration.calculate returns the sum of
func (a + (i + 1/2) * h) * h for i = 0..n-1, with h = (b - a) / n. -/
theorem rectangular_formula (func : ℚ → ℚ) (a b : ℚ) (n : ℤ) (hn : 1 ≤ n) :
    rectCalculate func a b n = Except.ok
      (∑ i ∈ Finset.range n.toNat,
        func (a + ((i : ℚ) + 1 / 2) * ((b - a) / (n : ℚ))) * ((b - a) / (n : ℚ))) :=
  rectCalculate_eq func a b n (by omega)

theorem rectangular_formula_witness :
    (1 : ℤ) ≤ 2
    ∧ rectCalculate (fun x => x) 0 1 2 = Except.ok
        (∑ i ∈ Finset.range (2 : ℤ).toNat,
          (0 + ((i : ℚ) + 1 / 2) * ((1 - 0) / ((2 : ℤ) : ℚ))) * ((1 - 0) / ((2 : ℤ) : ℚ))) :=
  ⟨by decide, rectangular_formula (fun x => x) 0 1 2 (by decide)⟩

/-- C8: with n = 0 both integration strategies fail with the division-by-zero
degenerate condition from computing h = (b - a) / n, not with any validation
guard. -/
theorem no_subdivision_validation (func : ℚ → ℚ) (a b : ℚ) :
    trapCalculate func a b 0 = Except.error divisionByZeroMsg
    ∧ rectCalculate func a b 0 = Except.error divisionByZeroMsg := by
  constructor
  · rw [trapCalculate, if_pos rfl]
  · rw [rectCalculate, if_pos rfl]

/-- C9: every call of the numerical core terminates within its bound: the
bisection loop completes at most max_iterations iterations, and each
integrator's sampling loop runs once per sample point, of which there are at
most n. -/
theorem termination_bounds (func : ℚ → ℚ) (a b tol h : ℚ) (m n : ℤ) :
    bisection_rootIter func a b tol m ≤ m.toNat
    ∧ (trapSamplePoints a h n).length ≤ n.toNat
    ∧ (rectSamplePoints a h n).length ≤ n.toNat := by
  refine ⟨?_, ?_, ?_⟩
  · rw [bisection_rootIter, bisection_rootP]
    by_cases hbr : func a * func b > 0
    · simp [hbr]
    · by_cases hab : a > b
      · simp [hbr, hab, bisectionLoop_count_le]
      · simp [hbr, hab, bisectionLoop_count_le]
  · rw [trapSamplePoints]
    rw [List.length_map, List.length_range']
    exact Int.toNat_le_toNat (by omega)
  · rw [rectSamplePoints]
    rw [List.length_map, List.length_range]

/-- C10: with a negative n, RectangularIntegration.calculate raises nothing
and returns exactly 0: h is computed but the loop body never runs, so func
is never sampled (the result does not depend on func at all). -/
theorem rectangular_negative_n (func : ℚ → ℚ) (a b : ℚ) (n : ℤ) (hn : n < 0) :
    rectCalculate func a b n = Except.ok 0 := by
  rw [rectCalculate, if_neg (by omega), rectSamplePoints]
  rw [Int.toNat_eq_zero.mpr (le_of_lt hn)]
  simp

theorem rectangular_negative_n_witness :
    (-1 : ℤ) < 0 ∧ rectCalculate (fun x => x + 7) 2 5 (-1) = Except.ok 0 :=
  ⟨by decide, rectangular_negative_n (fun x => x + 7) 2 5 (-1) (by decide)⟩

lemma sum_Icc_linear (c d : ℚ) (k : ℕ) :
    ∑ i ∈ Finset.Icc 1 k, (c * (i : ℚ) + d)
      = c * ((k : ℚ) * ((k : ℚ) + 1) / 2) + d * (k : ℚ) := by
  induction k with
  | zero => simp
  | succ p ih =>
    rw [Finset.sum_Icc_succ_top (by omega), ih]
    push_cast
    ring

lemma sum_range_half_sq (k : ℕ) :
    ∑ i ∈ Finset.range k, ((i : ℚ) + 1 / 2) ^ 2
      = (k : ℚ) * (4 * (k : ℚ) ^ 2 - 1) / 12 := by
  induction k with
  | zero => simp
  | succ p ih =>
    rw [Finset.sum_range_succ, ih]
    push_cast
    ring

/-- C6: the trapezoidal rule is exact on the linear function 2x + 1 over
[0, 4]: every n ≥ 1 yields exactly 20. -/
theorem trapezoidal_linear_exact (n : ℤ) (hn : 1 ≤ n) :
    trapCalculate (fun x => 2 * x + 1) 0 4 n = Except.ok 20 := by
  rw [trapCalculate_eq (fun x => 2 * x + 1) 0 4 n (by omega)]
  rw [Except.ok.injEq]
  have hk : (((n - 1).toNat : ℕ) : ℚ) = (n : ℚ) - 1 := by
    have h1 : (((n - 1).toNat : ℕ) : ℤ) = n - 1 := Int.toNat_of_nonneg (by omega)
    exact_mod_cast h1
  have hn0 : (n : ℚ) ≠ 0 := by
    have h2 : (0 : ℚ) < (n : ℚ) := by exact_mod_cast (by omega : (0 : ℤ) < n)
    exact ne_of_gt h2
  have hsum : ∑ i ∈ Finset.Icc 1 (n - 1).toNat,
      (fun x : ℚ => 2 * x + 1) (0 + (i : ℚ) * ((4 - 0) / (n : ℚ)))
      = 2 * ((4 - 0) / (n : ℚ))
          * ((((n - 1).toNat : ℕ) : ℚ) * ((((n - 1).toNat : ℕ) : ℚ) + 1) / 2)
        + 1 * (((n - 1).toNat : ℕ) : ℚ) := by
    rw [← sum_Icc_linear]
    refine Finset.sum_congr rfl ?_
    intro i _
    show 2 * (0 + (i : ℚ) * ((4 - 0) / (n : ℚ))) + 1
        = 2 * ((4 - 0) / (n : ℚ)) * (i : ℚ) + 1
    ring
  rw [hsum, hk]
  field_simp
  ring

theorem trapezoidal_linear_exact_witness :
    (1 : ℤ) ≤ 7
    ∧ trapCalculate (fun x => 2 * x + 1) 0 4 7 = Except.ok 20 :=
  ⟨by decide, trapezoidal_linear_exact 7 (by decide)⟩

lemma rect_sq_value (n : ℤ) (hn : 1 ≤ n) :
    rectCalculate (fun x => x ^ 2) 0 1 n
      = Except.ok (1 / 3 - 1 / (12 * (n : ℚ) ^ 2)) := by
  rw [rectCalculate_eq (fun x => x ^ 2) 0 1 n (by omega)]
  rw [Except.ok.injEq]
  have hk : ((n.toNat : ℕ) : ℚ) = (n : ℚ) := by
    have h1 : ((n.toNat : ℕ) : ℤ) = n := Int.toNat_of_nonneg (by omega)
    exact_mod_cast h1
  have hn0 : (n : ℚ) ≠ 0 := by
    have h2 : (0 : ℚ) < (n : ℚ) := by exact_mod_cast (by omega : (0 : ℤ) < n)
    exact ne_of_gt h2
  have hstep : ∀ i ∈ Finset.range n.toNat,
      (fun x : ℚ => x ^ 2) (0 + ((i : ℚ) + 1 / 2) * ((1 - 0) / (n : ℚ)))
          * ((1 - 0) / (n : ℚ))
        = ((i : ℚ) + 1 / 2) ^ 2 * (1 / (n : ℚ) ^ 3) := by
    intro i _
    show (0 + ((i : ℚ) + 1 / 2) * ((1 - 0) / (n : ℚ))) ^ 2 * ((1 - 0) / (n : ℚ))
        = ((i : ℚ) + 1 / 2) ^ 2 * (1 / (n : ℚ) ^ 3)
    field_simp
    ring
  rw [Finset.sum_congr rfl hstep, ← Finset.sum_mul, sum_range_half_sq, hk]
  field_simp
  ring

/-- C7: for x ^ 2 over [0, 1], the absolute error of
RectangularIntegration.calculate against the exact integral 1/3 strictly
decreases as n increases through 1 ≤ n < m ≤ 1000. -/
theorem midpoint_error_decreases (n m : ℤ) (h1 : 1 ≤ n) (h2 : n < m)
    (h3 : m ≤ 1000) :
    ∃ vn vm : ℚ,
      rectCalculate (fun x => x ^ 2) 0 1 n = Except.ok vn
      ∧ rectCalculate (fun x => x ^ 2) 0 1 m = Except.ok vm
      ∧ |vm - 1 / 3| < |vn - 1 / 3| := by
  refine ⟨_, _, rect_sq_value n h1, rect_sq_value m (by omega), ?_⟩
  have hnq : (0 : ℚ) < (n : ℚ) := by exact_mod_cast (by omega : (0 : ℤ) < n)
  have hmq : (0 : ℚ) < (m : ℚ) := by exact_mod_cast (by omega : (0 : ℤ) < m)
  have hnm : (n : ℚ) < (m : ℚ) := by exact_mod_cast h2
  have en : (1 / 3 - 1 / (12 * (n : ℚ) ^ 2)) - 1 / 3 = -(1 / (12 * (n : ℚ) ^ 2)) := by
    ring
  have em : (1 / 3 - 1 / (12 * (m : ℚ) ^ 2)) - 1 / 3 = -(1 / (12 * (m : ℚ) ^ 2)) := by
    ring
  rw [en, em, abs_neg, abs_neg]
  rw [abs_of_pos (by positivity), abs_of_pos (by positivity)]
  have hsq : 12 * (n : ℚ) ^ 2 < 12 * (m : ℚ) ^ 2 := by nlinarith
  exact one_div_lt_one_div_of_lt (by positivity) hsq

theorem midpoint_error_decreases_witness :
    (1 : ℤ) ≤ 1 ∧ (1 : ℤ) < 2 ∧ (2 : ℤ) ≤ 1000
    ∧ ∃ vn vm : ℚ,
        rectCalculate (fun x => x ^ 2) 0 1 1 = Except.ok vn
        ∧ rectCalculate (fun x => x ^ 2) 0 1 2 = Except.ok vm
        ∧ |vm - 1 / 3| < |vn - 1 / 3| :=
  ⟨by decide, by decide, by decide,
    midpoint_error_decreases 1 2 (by decide) (by decide) (by decide)⟩
